import Mathlib

/-!
Shallow embedding of the OpenAI protocol adapter of `adk-go`
(`model/openai`): request building (content conversion with the call
tracker, generation config, schema formats), tool and tool-choice
conversion, the non-streaming response converter and the streaming event
translator.  Go `map[string]any` / `any` JSON payloads are modelled by the
`JsonLite` value type; calls into Go's `encoding/json.Unmarshal` (an
external library) are modelled by an explicit `parse` function parameter.
-/

namespace AdkOpenAI

/-- JSON-like values standing in for Go `any` payloads that are
JSON-representable (so `json.Marshal` on them always succeeds). -/
inductive JsonLite where
  | null
  | bool (b : Bool)
  | num (n : Int)
  | str (s : String)
  | arr (elems : List JsonLite)
  | obj (fields : List (String × JsonLite))

/-- A JSON object, as produced by unmarshalling into `map[string]any`. -/
abbrev JsonObj := List (String × JsonLite)

/-- The named error values of `errors.go` together with the
`fmt.Errorf`-built errors of the conversion code, as one inductive so
that distinctness of the named errors is structural. -/
inductive OAIError where
  | requestNil
  | noContents
  | functionCallMissingName
  | missingCallID (name : String)
  | unknownCallID (id : String)
  | topKNotSupported
  | stopSequencesNotSupported
  | multipleCandidatesNotSupported
  | penaltiesNotSupported
  | labelsNotSupported
  | safetySettingsNotSupported
  | jsonResponseWithoutSchema
  | emptyJSONSchema
  | unsupportedMimeType (mime : String)
  | systemInstructionNonText
  | unsupportedRole (role : String)
  | unsupportedPart
  | unsupportedToolMode (mode : String)
  | nilTool (idx : Nat)
  | nonFunctionTool (idx : Nat)
  | toolWithoutFunctions (idx : Nat)
  | nilFunctionDeclaration
  | functionDeclMissingName
  | schemaUnmarshal
  | emptyResponse
  | noOutputItems
  | noTextOrToolContent
  | unsupportedMessageContent (ctype : String)
  | unsupportedOutputItem (itype : String)
  | parseFunctionCallArgs
deriving Repr, DecidableEq

/-- `genai.FunctionCall`: name, optional call ID, argument map. -/
structure FunctionCall where
  name : String
  id : String
  args : Option JsonObj

/-- `genai.FunctionResponse`: name, optional call ID, result map. -/
structure FunctionResponse where
  name : String
  id : String
  response : Option JsonObj

/-- `responses.ResponseFunctionToolCallParam` (the marshalled argument
string is kept as its structured value). -/
structure FunctionToolCallParam where
  name : String
  callID : String
  arguments : JsonLite

/-- `responses.ResponseInputItemFunctionCallOutputParam`. -/
structure FunctionCallOutputParam where
  callID : String
  output : JsonLite

/-- `callTracker`: generated-ID counter and ordered pending call IDs. -/
structure CallTracker where
  nextID : Nat
  pending : List String
deriving Repr, DecidableEq

/-- `fmt.Sprintf("adk-openai-call-%d", n)`. -/
def genCallID (n : Nat) : String :=
  "adk-openai-call-" ++ Nat.repr n

/-- The marshalled payload of a function response:
`json.Marshal(fr.Response)` (a `nil` map marshals to JSON `null`). -/
def responsePayload (fr : FunctionResponse) : JsonLite :=
  match fr.response with
  | none => JsonLite.null
  | some m => JsonLite.obj m

/-- The in-place removal loop of `newFunctionResponse`: delete the first
occurrence of `id` from the pending list. -/
def removeFirst (xs : List String) (id : String) : List String :=
  match xs with
  | [] => []
  | x :: rest => if x = id then rest else x :: removeFirst rest id

/-- `callTracker.newFunctionCall`.  The Go method mutates the receiver;
here the updated tracker is returned alongside the result, so state
changes on error paths stay observable. -/
def CallTracker.newFunctionCall (t : CallTracker) (fc : FunctionCall) :
    CallTracker × Except OAIError FunctionToolCallParam :=
  if fc.name = "" then
    (t, .error .functionCallMissingName)
  else
    let callID := if fc.id = "" then genCallID t.nextID else fc.id
    let nextID := if fc.id = "" then t.nextID + 1 else t.nextID
    let argsValue := fc.args.getD []
    ({ nextID := nextID, pending := t.pending ++ [callID] },
     .ok { name := fc.name, callID := callID, arguments := .obj argsValue })

/-- `callTracker.newFunctionResponse`: an absent ID consumes the oldest
pending entry, an explicit ID removes its first occurrence, an unknown
explicit ID is an error (and the receiver is untouched). -/
def CallTracker.newFunctionResponse (t : CallTracker) (fr : FunctionResponse) :
    CallTracker × Except OAIError FunctionCallOutputParam :=
  if fr.id = "" then
    match t.pending with
    | [] => (t, .error (.missingCallID fr.name))
    | oldest :: rest =>
        ({ t with pending := rest },
         .ok { callID := oldest, output := responsePayload fr })
  else
    if fr.id ∈ t.pending then
      ({ t with pending := removeFirst t.pending fr.id },
       .ok { callID := fr.id, output := responsePayload fr })
    else
      (t, .error (.unknownCallID fr.id))

/-- The fresh tracker `convertContents` starts from (Go zero value). -/
def CallTracker.empty : CallTracker := { nextID := 0, pending := [] }

/-! ### Injectivity of the generated call IDs

`genCallID` builds on `Nat.repr`; decoding the decimal digit string back
to the number shows `Nat.repr` (hence `genCallID`) is injective. -/

/-- Decode a list of decimal digit characters back into a number. -/
def decDigits (l : List Char) : Nat :=
  l.foldl (fun a c => 10 * a + (c.toNat - 48)) 0

theorem toDigitsCore_append (f n : Nat) (ds : List Char) :
    Nat.toDigitsCore 10 f n ds = Nat.toDigitsCore 10 f n [] ++ ds := by
  induction f generalizing n ds with
  | zero => simp [Nat.toDigitsCore]
  | succ f ih =>
      simp only [Nat.toDigitsCore]
      by_cases h : n / 10 = 0
      · simp [h]
      · simp only [h, if_false]
        rw [ih (n / 10) (Nat.digitChar (n % 10) :: ds),
            ih (n / 10) [Nat.digitChar (n % 10)]]
        simp

theorem decDigits_append_single (xs : List Char) (c : Char) :
    decDigits (xs ++ [c]) = 10 * decDigits xs + (c.toNat - 48) := by
  simp [decDigits, List.foldl_append]

theorem digitChar_decode : ∀ m < 10, (Nat.digitChar m).toNat - 48 = m := by
  decide

theorem decDigits_toDigitsCore (n : Nat) :
    ∀ f, n ≤ f → decDigits (Nat.toDigitsCore 10 (f + 1) n []) = n := by
  induction n using Nat.strong_induction_on with
  | _ n ih =>
      intro f hf
      simp only [Nat.toDigitsCore]
      by_cases h : n / 10 = 0
      · have hn : n < 10 := by omega
        simp only [h, if_true]
        have h2 := digitChar_decode (n % 10) (Nat.mod_lt _ (by omega))
        rw [Nat.mod_eq_of_lt hn] at h2
        simp [decDigits, Nat.mod_eq_of_lt hn, h2]
      · simp only [h, if_false]
        have hn10 : n ≥ 10 := by
          by_contra hc
          exact h (Nat.div_eq_of_lt (by omega))
        obtain ⟨f', rfl⟩ : ∃ f', f = f' + 1 := ⟨f - 1, by omega⟩
        rw [toDigitsCore_append]
        rw [decDigits_append_single]
        have hdiv_lt : n / 10 < n := Nat.div_lt_self (by omega) (by omega)
        have hdiv_le : n / 10 ≤ f' := by
          have := Nat.div_le_self n 10
          omega
        rw [ih (n / 10) hdiv_lt f' hdiv_le]
        have := digitChar_decode (n % 10) (Nat.mod_lt _ (by omega))
        rw [this]
        omega

theorem natRepr_injective {m n : Nat} (h : Nat.repr m = Nat.repr n) : m = n := by
  unfold Nat.repr at h
  have hlist : Nat.toDigits 10 m = Nat.toDigits 10 n := by
    have := congrArg String.data h
    simpa [List.asString] using this
  unfold Nat.toDigits at hlist
  have hm := decDigits_toDigitsCore m m le_rfl
  have hn := decDigits_toDigitsCore n n le_rfl
  rw [hlist] at hm
  rw [hn] at hm
  exact hm.symm

theorem genCallID_injective {m n : Nat} (h : genCallID m = genCallID n) :
    m = n := by
  unfold genCallID at h
  have hdata := congrArg String.data h
  simp only [String.data_append] at hdata
  have : (Nat.repr m).data = (Nat.repr n).data :=
    List.append_cancel_left hdata
  exact natRepr_injective (by
    cases hm : Nat.repr m
    cases hn : Nat.repr n
    simp_all)

/-- Removing the first occurrence of a present element splits the list
around that occurrence. -/
theorem removeFirst_eq_of_mem {xs : List String} {cid : String} (h : cid ∈ xs) :
    ∃ l1 l2, xs = l1 ++ cid :: l2 ∧ cid ∉ l1 ∧ removeFirst xs cid = l1 ++ l2 := by
  induction xs with
  | nil => cases h
  | cons x rest ih =>
      by_cases hx : x = cid
      · exact ⟨[], rest, by simp [hx], by simp, by simp [removeFirst, hx]⟩
      · have hmem : cid ∈ rest := by
          rcases List.mem_cons.mp h with h1 | h1
          · exact absurd h1.symm hx
          · exact h1
        obtain ⟨l1, l2, hsplit, hnot, hrm⟩ := ih hmem
        refine ⟨x :: l1, l2, by simp [hsplit], ?_, by simp [removeFirst, hx, hrm]⟩
        simp only [List.mem_cons, not_or]
        exact ⟨fun he => hx he.symm, hnot⟩

/-- C1: Call-tracker correlation.  A function call without an explicit ID
gets the generated ID appended to the pending list; a function response
without an ID consumes the oldest pending entry (FIFO); a response with an
explicit pending ID removes exactly the first matching entry; a response
with an explicit ID not in the pending list fails and leaves the tracker
(in particular its pending list) completely unchanged. -/
theorem callTracker_correlation (t : CallTracker) (fc : FunctionCall)
    (fr : FunctionResponse) :
    (fc.id = "" → fc.name ≠ "" →
      t.newFunctionCall fc =
        ({ nextID := t.nextID + 1, pending := t.pending ++ [genCallID t.nextID] },
         .ok { name := fc.name, callID := genCallID t.nextID,
               arguments := .obj (fc.args.getD []) })) ∧
    (fr.id = "" → ∀ oldest rest, t.pending = oldest :: rest →
      t.newFunctionResponse fr =
        ({ t with pending := rest },
         .ok { callID := oldest, output := responsePayload fr })) ∧
    (fr.id ≠ "" → fr.id ∈ t.pending →
      ∃ l1 l2, t.pending = l1 ++ fr.id :: l2 ∧ fr.id ∉ l1 ∧
        t.newFunctionResponse fr =
          ({ t with pending := l1 ++ l2 },
           .ok { callID := fr.id, output := responsePayload fr })) ∧
    (fr.id ≠ "" → fr.id ∉ t.pending →
      t.newFunctionResponse fr = (t, .error (.unknownCallID fr.id))) := by
  refine ⟨?_, ?_, ?_, ?_⟩
  · intro hid hname
    simp [CallTracker.newFunctionCall, hid, hname]
  · intro hid oldest rest hp
    simp [CallTracker.newFunctionResponse, hid, hp]
  · intro hid hmem
    obtain ⟨l1, l2, hsplit, hnot, hrm⟩ := removeFirst_eq_of_mem hmem
    exact ⟨l1, l2, hsplit, hnot, by simp [CallTracker.newFunctionResponse, hid, hmem, hrm]⟩
  · intro hid hmem
    simp [CallTracker.newFunctionResponse, hid, hmem]

/-- Witness for C1 at concrete inputs: a generated ID is appended, a
bare response consumes the oldest entry, an explicit pending ID is
removed, and an unknown explicit ID errors with the tracker unchanged. -/
theorem callTracker_correlation_witness :
    (CallTracker.newFunctionCall { nextID := 5, pending := ["p"] }
        { name := "f", id := "", args := none } =
      ({ nextID := 6, pending := ["p", genCallID 5] },
       .ok { name := "f", callID := genCallID 5, arguments := .obj [] })) ∧
    (CallTracker.newFunctionResponse { nextID := 0, pending := ["a", "b"] }
        { name := "g", id := "", response := none } =
      ({ nextID := 0, pending := ["b"] },
       .ok { callID := "a", output := JsonLite.null })) ∧
    (∃ l1 l2, ["a", "b"] = l1 ++ "b" :: l2 ∧ "b" ∉ l1 ∧
      CallTracker.newFunctionResponse { nextID := 0, pending := ["a", "b"] }
          { name := "g", id := "b", response := none } =
        ({ nextID := 0, pending := l1 ++ l2 },
         .ok { callID := "b", output := JsonLite.null })) ∧
    (CallTracker.newFunctionResponse { nextID := 0, pending := ["a", "b"] }
        { name := "g", id := "zzz", response := none } =
      ({ nextID := 0, pending := ["a", "b"] },
       .error (.unknownCallID "zzz"))) := by
  have h1 := (callTracker_correlation { nextID := 5, pending := ["p"] }
      { name := "f", id := "", args := none }
      { name := "g", id := "", response := none })
  have h2 := (callTracker_correlation { nextID := 0, pending := ["a", "b"] }
      { name := "f", id := "", args := none }
      { name := "g", id := "", response := none })
  have h3 := (callTracker_correlation { nextID := 0, pending := ["a", "b"] }
      { name := "f", id := "", args := none }
      { name := "g", id := "b", response := none })
  have h4 := (callTracker_correlation { nextID := 0, pending := ["a", "b"] }
      { name := "f", id := "", args := none }
      { name := "g", id := "zzz", response := none })
  refine ⟨h1.1 rfl (by decide), h2.2.1 rfl "a" ["b"] rfl, h3.2.2.1 (by decide) (by decide),
          h4.2.2.2 (by decide) (by decide)⟩

/-- The at-most-once registry invariant: no duplicate pending IDs, and
every pending ID is a generated ID below the counter. -/
def TrackerInv (t : CallTracker) : Prop :=
  t.pending.Nodup ∧ ∀ cid ∈ t.pending, ∃ i, i < t.nextID ∧ cid = genCallID i

/-- C3 counterexample: registering two function calls that both carry the
explicit identifier "x" yields a pending list containing "x" twice, so the
at-most-once claim fails as stated. -/
theorem pending_registry_duplicate :
    ((CallTracker.empty.newFunctionCall
        { name := "f", id := "x", args := none }).1.newFunctionCall
        { name := "g", id := "x", args := none }).1.pending = ["x", "x"] ∧
    ¬ ((CallTracker.empty.newFunctionCall
        { name := "f", id := "x", args := none }).1.newFunctionCall
        { name := "g", id := "x", args := none }).1.pending.Nodup := by
  refine ⟨rfl, by decide⟩

/-- C3 (amended): starting from the fresh tracker, as long as every
registered function call carries no explicit identifier, each call ID
appears at most once in the pending list after every tracker operation
(function responses, with or without explicit IDs, preserve this as
well); registering calls with repeated explicit identifiers, however, can
produce a duplicated pending entry. -/
theorem pending_registry_at_most_once (t : CallTracker) (fc : FunctionCall)
    (fr : FunctionResponse) (hinv : TrackerInv t) :
    TrackerInv CallTracker.empty ∧
    (fc.id = "" → TrackerInv (t.newFunctionCall fc).1) ∧
    TrackerInv (t.newFunctionResponse fr).1 := by
  obtain ⟨hnd, hbound⟩ := hinv
  refine ⟨⟨List.nodup_nil, by simp [CallTracker.empty]⟩, ?_, ?_⟩
  · intro hid
    by_cases hname : fc.name = ""
    · simpa [CallTracker.newFunctionCall, hname] using ⟨hnd, hbound⟩
    · have hfresh : genCallID t.nextID ∉ t.pending := by
        intro hmem
        obtain ⟨i, hi, hgen⟩ := hbound _ hmem
        have := genCallID_injective hgen
        omega
      have hres : (t.newFunctionCall fc).1 =
          { nextID := t.nextID + 1, pending := t.pending ++ [genCallID t.nextID] } := by
        simp [CallTracker.newFunctionCall, hname, hid]
      rw [hres]
      refine ⟨?_, ?_⟩
      · show (t.pending ++ [genCallID t.nextID]).Nodup
        refine List.Nodup.append hnd (List.nodup_singleton _) ?_
        intro a ha hb
        rw [List.mem_singleton] at hb
        exact hfresh (hb ▸ ha)
      · intro cid hcid
        show ∃ i, i < t.nextID + 1 ∧ cid = genCallID i
        have hcid' : cid ∈ t.pending ∨ cid = genCallID t.nextID := by
          simpa using hcid
        rcases hcid' with hcid' | hcid'
        · obtain ⟨i, hi, hgen⟩ := hbound _ hcid'
          exact ⟨i, by omega, hgen⟩
        · exact ⟨t.nextID, by omega, hcid'⟩
  · by_cases hid : fr.id = ""
    · match hp : t.pending with
      | [] => simpa [CallTracker.newFunctionResponse, hid, hp] using ⟨hnd, hbound⟩
      | oldest :: rest =>
          rw [hp] at hnd hbound
          refine by simpa [CallTracker.newFunctionResponse, hid, hp] using
            ⟨hnd.of_cons, fun cid hcid => hbound cid (List.mem_cons_of_mem _ hcid)⟩
    · by_cases hmem : fr.id ∈ t.pending
      · obtain ⟨l1, l2, hsplit, _, hrm⟩ := removeFirst_eq_of_mem hmem
        have hsub : (l1 ++ l2).Sublist t.pending := by
          rw [hsplit]
          exact (List.sublist_cons_self _ _).append_left l1
        refine by simpa [CallTracker.newFunctionResponse, hid, hmem, hrm] using
          ⟨hnd.sublist hsub, fun cid hcid => hbound cid (hsub.subset hcid)⟩
      · simpa [CallTracker.newFunctionResponse, hid, hmem] using ⟨hnd, hbound⟩

/-- Witness for C3 (amended) at concrete inputs: the invariant holds
after registering an ID-less call and matching an ID-less response on a
tracker reached from the fresh state. -/
theorem pending_registry_at_most_once_witness :
    TrackerInv CallTracker.empty ∧
    ((""  : String) = "" → TrackerInv
      ((CallTracker.newFunctionCall { nextID := 1, pending := [genCallID 0] }
        { name := "f", id := "", args := none }).1)) ∧
    TrackerInv ((CallTracker.newFunctionResponse { nextID := 1, pending := [genCallID 0] }
        { name := "g", id := "", response := none }).1) :=
  pending_registry_at_most_once { nextID := 1, pending := [genCallID 0] }
    { name := "f", id := "", args := none }
    { name := "g", id := "", response := none }
    ⟨by decide, by
      intro cid hcid
      refine ⟨0, by decide, ?_⟩
      simpa using hcid⟩

/-! ### Streaming translator (`stream.go`) -/

/-- Event-type constants of `consts.go`. -/
def responseOutputTextDelta : String := "response.output_text.delta"

def responseReasoningTextDelta : String := "response.reasoning_text.delta"

def responseReasoningSummaryTextDelta : String := "response.reasoning_summary_text.delta"

def responseFunctionCallArgumentsDelta : String := "response.function_call_arguments.delta"

def responseFunctionCallArgumentsDone : String := "response.function_call_arguments.done"

def responseOutputTextDone : String := "response.output_text.done"

def responseReasoningTextDone : String := "response.reasoning_text.done"

def responseReasoningSummaryTextDone : String := "response.reasoning_summary_text.done"

def responseCompleted : String := "response.completed"

def responseInProgress : String := "response.in_progress"

def responseOutputItemAdded : String := "response.output_item.added"

def responseOutputItemDone : String := "response.output_item.done"

/-- One `responses.ResponseStreamEventUnion`: a tagged union flattened to
its type string plus the fields the translator reads from the per-variant
views. -/
structure StreamEvent where
  type : String
  delta : String
  itemID : String
  arguments : String
  name : String
  message : String
deriving Repr, DecidableEq

/-- A produced `genai.Part` (text, thought flag, optional function call). -/
structure OutPart where
  text : String := ""
  thought : Bool := false
  functionCall : Option FunctionCall := none

/-- `genai.FinishReason` values used by the adapter. -/
inductive FinishReason where
  | unspecified
  | stop
  | maxTokens
  | safety
  | other
deriving Repr, DecidableEq

/-- `genai.Content` as produced by the adapter. -/
structure ContentOut where
  role : String
  parts : List OutPart

/-- `genai.Candidate` as produced by the adapter. -/
structure Candidate where
  content : ContentOut
  finishReason : FinishReason

/-- `genai.GenerateContentResponse` (streaming path fields). -/
structure GenerateContentResponse where
  candidates : List Candidate

/-- Errors of the streaming translator. -/
inductive StreamError where
  | parseArgs (payload : String)
  | responseFailed (msg : String)
  | streamError (msg : String)
  | streamErrorNoMessage
deriving Repr, DecidableEq

/-- The translator's `functionArgs` map: item ID to accumulated argument
text (a `strings.Builder` modelled by its contents). -/
abbrev BufMap := List (String × String)

/-- Go map read. -/
def lookupBuf (m : BufMap) (k : String) : Option String :=
  match m with
  | [] => none
  | (k', v) :: rest => if k' = k then some v else lookupBuf rest k

/-- Append `v` to the builder stored at `k`, creating it when absent. -/
def writeBuf (m : BufMap) (k v : String) : BufMap :=
  match m with
  | [] => [(k, v)]
  | (k', v') :: rest =>
      if k' = k then (k', v' ++ v) :: rest else (k', v') :: writeBuf rest k v

/-- Go `delete(m, k)`. -/
def eraseBuf (m : BufMap) (k : String) : BufMap :=
  match m with
  | [] => []
  | (k', v) :: rest => if k' = k then rest else (k', v) :: eraseBuf rest k

/-- `streamTranslator`: per-stream function-argument buffers. -/
structure StreamTranslator where
  functionArgs : BufMap

/-- `newStreamTranslator()`. -/
def newStreamTranslator : StreamTranslator := { functionArgs := [] }

/-- `streamTranslator.buffer` fused with the single `WriteString` at its
only call site: append `delta` to the builder keyed by `id`, normalising
an empty id to "default". -/
def StreamTranslator.buffer (t : StreamTranslator) (id delta : String) :
    StreamTranslator :=
  { functionArgs :=
      writeBuf t.functionArgs (if id = "" then "default" else id) delta }

/-- `streamTranslator.emitFunctionCall`.  `json.Unmarshal` into
`map[string]any` is the external `parse` parameter (`none` = parse
failure). -/
def StreamTranslator.emitFunctionCall (parse : String → Option JsonObj)
    (t : StreamTranslator) (done : StreamEvent) :
    StreamTranslator × Except StreamError OutPart :=
  let payload0 := done.arguments
  let payload1 :=
    if payload0 = "" then (lookupBuf t.functionArgs done.itemID).getD ""
    else payload0
  let t' : StreamTranslator :=
    { functionArgs := eraseBuf t.functionArgs done.itemID }
  let payload := if payload1 = "" then "\x7b\x7d" else payload1
  match parse payload with
  | none => (t', .error (.parseArgs payload))
  | some args =>
      (t', .ok { functionCall := some
                  { name := done.name, id := done.itemID, args := some args } })

/-- `singlePartResponse`. -/
def singlePartResponse (part : Option OutPart) : Option GenerateContentResponse :=
  match part with
  | none => none
  | some p =>
      some { candidates :=
        [{ content := { role := "model", parts := [p] },
           finishReason := .unspecified }] }

/-- `streamTranslator.process`: one vendor stream event to at most one
canonical micro-response. -/
def StreamTranslator.process (parse : String → Option JsonObj)
    (t : StreamTranslator) (evt : StreamEvent) :
    StreamTranslator × Except StreamError (Option GenerateContentResponse) :=
  if evt.type = responseOutputTextDelta then
    if evt.delta = "" then (t, .ok none)
    else (t, .ok (singlePartResponse (some { text := evt.delta })))
  else if evt.type = responseReasoningTextDelta then
    if evt.delta = "" then (t, .ok none)
    else (t, .ok (singlePartResponse (some { text := evt.delta, thought := true })))
  else if evt.type = responseReasoningSummaryTextDelta then
    if evt.delta = "" then (t, .ok none)
    else (t, .ok (singlePartResponse (some { text := evt.delta, thought := true })))
  else if evt.type = responseFunctionCallArgumentsDelta then
    if evt.delta ≠ "" then (t.buffer evt.itemID evt.delta, .ok none)
    else (t, .ok none)
  else if evt.type = responseFunctionCallArgumentsDone then
    match t.emitFunctionCall parse evt with
    | (t', .error e) => (t', .error e)
    | (t', .ok part) => (t', .ok (singlePartResponse (some part)))
  else if evt.type = "response.failed" then
    (t, .error (.responseFailed evt.message))
  else if evt.type = "error" then
    if evt.message ≠ "" then (t, .error (.streamError evt.message))
    else (t, .error .streamErrorNoMessage)
  else if evt.type = responseOutputTextDone ∨ evt.type = responseReasoningTextDone ∨
      evt.type = responseReasoningSummaryTextDone ∨ evt.type = responseCompleted ∨
      evt.type = responseInProgress ∨ evt.type = responseOutputItemAdded ∨
      evt.type = responseOutputItemDone then
    (t, .ok none)
  else
    (t, .ok none)

/-- The event kinds the `switch` in `streamTranslator.process` recognises. -/
def recognizedEventTypes : List String :=
  [responseOutputTextDelta, responseReasoningTextDelta,
   responseReasoningSummaryTextDelta, responseFunctionCallArgumentsDelta,
   responseFunctionCallArgumentsDone, "response.failed", "error",
   responseOutputTextDone, responseReasoningTextDone,
   responseReasoningSummaryTextDone, responseCompleted, responseInProgress,
   responseOutputItemAdded, responseOutputItemDone]

/-- C9: Forward-compatible streaming.  An event whose kind is not any of
the recognized kinds produces no output, no error, and leaves the
translator's buffer state untouched. -/
theorem unrecognized_event_is_noop (parse : String → Option JsonObj)
    (t : StreamTranslator) (evt : StreamEvent)
    (h : evt.type ∉ recognizedEventTypes) :
    t.process parse evt = (t, .ok none) := by
  simp only [recognizedEventTypes, List.mem_cons, List.mem_singleton,
    not_or, List.not_mem_nil] at h
  obtain ⟨h1, h2, h3, h4, h5, h6, h7, h8, h9, h10, h11, h12, h13, h14, -⟩ := h
  simp [StreamTranslator.process, h1, h2, h3, h4, h5, h6, h7, h8, h9, h10,
    h11, h12, h13, h14]

/-- `emitFunctionCall`, restated against the spec's payload selection:
inline arguments when non-empty, else the buffered text for the item ID,
else the empty JSON object. -/
theorem emitFunctionCall_spec (parse : String → Option JsonObj)
    (t : StreamTranslator) (evt : StreamEvent) (payload : String)
    (hpayload : payload =
      if evt.arguments ≠ "" then evt.arguments
      else if (lookupBuf t.functionArgs evt.itemID).getD "" ≠ "" then
        (lookupBuf t.functionArgs evt.itemID).getD ""
      else "\x7b\x7d") :
    t.emitFunctionCall parse evt =
      ({ functionArgs := eraseBuf t.functionArgs evt.itemID },
       match parse payload with
       | none => .error (.parseArgs payload)
       | some args =>
           .ok { functionCall := some
                  { name := evt.name, id := evt.itemID, args := some args } }) := by
  have hpay : (if (if evt.arguments = "" then
        (lookupBuf t.functionArgs evt.itemID).getD "" else evt.arguments) = ""
      then "\x7b\x7d"
      else (if evt.arguments = "" then
        (lookupBuf t.functionArgs evt.itemID).getD "" else evt.arguments)) = payload := by
    by_cases ha : evt.arguments = "" <;>
      by_cases hb : (lookupBuf t.functionArgs evt.itemID).getD "" = "" <;>
        simp [ha, hb, hpayload]
  unfold StreamTranslator.emitFunctionCall
  simp only []
  rw [hpay]
  cases parse payload <;> rfl

/-- On a function-call-arguments done event, `process` defers to
`emitFunctionCall` and wraps an emitted part in a micro-response. -/
theorem process_done_eq (parse : String → Option JsonObj)
    (t : StreamTranslator) (evt : StreamEvent)
    (htype : evt.type = responseFunctionCallArgumentsDone) :
    t.process parse evt =
      (match t.emitFunctionCall parse evt with
       | (t', .error e) => (t', .error e)
       | (t', .ok part) => (t', .ok (singlePartResponse (some part)))) := by
  unfold StreamTranslator.process
  rw [htype]
  simp [responseOutputTextDelta, responseReasoningTextDelta,
    responseReasoningSummaryTextDelta, responseFunctionCallArgumentsDelta,
    responseFunctionCallArgumentsDone]

/-- C2: Streaming function-call completion.  On a
"response.function_call_arguments.done" event the payload is the event's
inline arguments when non-empty, else the buffered text for the item ID,
else the empty JSON object; the buffer entry is removed unconditionally
(also when parsing then fails); an unparsable payload is an error;
otherwise exactly one micro-response is emitted whose single part is a
function call carrying the parsed arguments, the item ID, and the name. -/
theorem function_call_done_emission (parse : String → Option JsonObj)
    (t : StreamTranslator) (evt : StreamEvent)
    (htype : evt.type = responseFunctionCallArgumentsDone)
    (payload : String)
    (hpayload : payload =
      if evt.arguments ≠ "" then evt.arguments
      else if (lookupBuf t.functionArgs evt.itemID).getD "" ≠ "" then
        (lookupBuf t.functionArgs evt.itemID).getD ""
      else "\x7b\x7d") :
    ((t.process parse evt).1.functionArgs = eraseBuf t.functionArgs evt.itemID) ∧
    (parse payload = none →
      (t.process parse evt).2 = .error (.parseArgs payload)) ∧
    (∀ args, parse payload = some args →
      (t.process parse evt).2 = .ok (some
        { candidates :=
          [{ content :=
              { role := "model",
                parts := [{ text := "", thought := false,
                            functionCall := some
                              { name := evt.name, id := evt.itemID,
                                args := some args } }] },
             finishReason := .unspecified }] })) := by
  have hemit := emitFunctionCall_spec parse t evt payload hpayload
  have hproc := process_done_eq parse t evt htype
  rw [hemit] at hproc
  refine ⟨?_, ?_, ?_⟩
  · cases hp : parse payload <;> simp [hp] at hproc <;> simp [hproc]
  · intro hp
    simp [hp] at hproc
    simp [hproc]
  · intro args hp
    simp [hp] at hproc
    simp [hproc, singlePartResponse]

/-- Witness for C2 at concrete inputs: the buffer entry for the item is
removed and the function call is emitted with the parsed arguments. -/
theorem function_call_done_emission_witness :
    ((StreamTranslator.process (fun _ => some [])
        { functionArgs := [("i1", "buffered")] }
        { type := responseFunctionCallArgumentsDone, delta := "",
          itemID := "i1", arguments := "a", name := "fn",
          message := "" }).1.functionArgs =
      eraseBuf [("i1", "buffered")] "i1") ∧
    ((StreamTranslator.process (fun _ => some [])
        { functionArgs := [("i1", "buffered")] }
        { type := responseFunctionCallArgumentsDone, delta := "",
          itemID := "i1", arguments := "a", name := "fn",
          message := "" }).2 = .ok (some
      { candidates :=
        [{ content :=
            { role := "model",
              parts := [{ text := "", thought := false,
                          functionCall := some
                            { name := "fn", id := "i1",
                              args := some [] } }] },
           finishReason := .unspecified }] })) :=
  ⟨(function_call_done_emission (fun _ => some [])
      { functionArgs := [("i1", "buffered")] }
      { type := responseFunctionCallArgumentsDone, delta := "",
        itemID := "i1", arguments := "a", name := "fn", message := "" }
      rfl "a" (by decide)).1,
   (function_call_done_emission (fun _ => some [])
      { functionArgs := [("i1", "buffered")] }
      { type := responseFunctionCallArgumentsDone, delta := "",
        itemID := "i1", arguments := "a", name := "fn", message := "" }
      rfl "a" (by decide)).2.2 [] rfl⟩

/-- Witness for C9: a concrete unknown event kind is a no-op. -/
theorem unrecognized_event_is_noop_witness :
    StreamTranslator.process (fun _ => none) { functionArgs := [("a", "b")] }
        { type := "response.queued", delta := "", itemID := "", arguments := "",
          name := "", message := "" } =
      ({ functionArgs := [("a", "b")] }, .ok none) :=
  unrecognized_event_is_noop (fun _ => none) { functionArgs := [("a", "b")] }
    { type := "response.queued", delta := "", itemID := "", arguments := "",
      name := "", message := "" } (by decide)

/-- Writing a buffer key makes it present. -/
theorem lookupBuf_writeBuf_self (m : BufMap) (k v : String) :
    (lookupBuf (writeBuf m k v) k).isSome := by
  induction m with
  | nil => simp [writeBuf, lookupBuf]
  | cons p rest ih =>
      by_cases hk : p.1 = k <;> simp [writeBuf, lookupBuf, hk, ih]

/-- Writing one buffer key does not affect lookups of another. -/
theorem lookupBuf_writeBuf_ne (m : BufMap) {k k' : String} (v : String)
    (h : k' ≠ k) : lookupBuf (writeBuf m k v) k' = lookupBuf m k' := by
  have hks : ¬k = k' := fun he => h he.symm
  induction m with
  | nil => simp [writeBuf, lookupBuf, hks]
  | cons p rest ih =>
      by_cases hk : p.1 = k
      · simp [writeBuf, lookupBuf, hk, hks]
      · by_cases hk' : p.1 = k' <;> simp [writeBuf, lookupBuf, hk, hk', h, ih]

/-- Deleting one buffer key does not affect lookups of another. -/
theorem lookupBuf_eraseBuf_ne (m : BufMap) {k k' : String} (h : k' ≠ k) :
    lookupBuf (eraseBuf m k) k' = lookupBuf m k' := by
  have hks : ¬k = k' := fun he => h he.symm
  induction m with
  | nil => simp [eraseBuf, lookupBuf]
  | cons p rest ih =>
      by_cases hk : p.1 = k
      · simp [eraseBuf, lookupBuf, hk, hks]
      · by_cases hk' : p.1 = k' <;> simp [eraseBuf, lookupBuf, hk, hk', h, ih]

/-- `emitFunctionCall` always deletes the done event's item-ID entry. -/
theorem emitFunctionCall_fst (parse : String → Option JsonObj)
    (t : StreamTranslator) (evt : StreamEvent) :
    (t.emitFunctionCall parse evt).1.functionArgs =
      eraseBuf t.functionArgs evt.itemID := by
  unfold StreamTranslator.emitFunctionCall
  simp only []
  split <;> rfl

/-- After any one event, the translator state is unchanged, extended via
`buffer`, or the done-event deletion. -/
theorem process_fst_cases (parse : String → Option JsonObj)
    (t : StreamTranslator) (evt : StreamEvent) :
    (t.process parse evt).1 = t ∨
    (t.process parse evt).1 = t.buffer evt.itemID evt.delta ∨
    (t.process parse evt).1.functionArgs = eraseBuf t.functionArgs evt.itemID := by
  unfold StreamTranslator.process
  split_ifs <;> try simp
  rcases hemit : t.emitFunctionCall parse evt with ⟨t', r⟩
  have hfst := emitFunctionCall_fst parse t evt
  rw [hemit] at hfst
  cases r <;> exact Or.inr (Or.inr hfst)

/-- One step of processing never deletes the "default" buffer entry as
long as the event's item ID is not literally "default". -/
theorem process_preserves_default (parse : String → Option JsonObj)
    (t : StreamTranslator) (evt : StreamEvent) (hid : evt.itemID ≠ "default")
    (h : (lookupBuf t.functionArgs "default").isSome) :
    (lookupBuf (t.process parse evt).1.functionArgs "default").isSome := by
  rcases process_fst_cases parse t evt with hc | hc | hc
  · rw [hc]; exact h
  · rw [hc]
    unfold StreamTranslator.buffer
    by_cases hempty : evt.itemID = ""
    · simpa [hempty] using lookupBuf_writeBuf_self t.functionArgs "default" evt.delta
    · simp only [hempty, if_neg, if_false]
      rw [lookupBuf_writeBuf_ne t.functionArgs evt.delta (fun he => hid he.symm)]
      exact h
  · rw [hc, lookupBuf_eraseBuf_ne t.functionArgs (fun he => hid he.symm)]
    exact h

/-- Run the translator over a list of events, keeping only the state (the
Go loop feeds events one at a time). -/
def processAll (parse : String → Option JsonObj) (t : StreamTranslator) :
    List StreamEvent → StreamTranslator
  | [] => t
  | e :: rest => processAll parse (t.process parse e).1 rest

theorem processAll_preserves_default (parse : String → Option JsonObj)
    (evts : List StreamEvent) : ∀ t : StreamTranslator,
    (∀ e ∈ evts, e.itemID ≠ "default") →
    (lookupBuf t.functionArgs "default").isSome →
    (lookupBuf (processAll parse t evts).functionArgs "default").isSome := by
  induction evts with
  | nil => intro t _ h; exact h
  | cons e rest ih =>
      intro t hids h
      exact ih _ (fun e' he' => hids e' (List.mem_cons_of_mem _ he'))
        (process_preserves_default parse t e (hids e (List.mem_cons_self _ _)) h)

/-- C10: argument deltas with an empty item ID accumulate under the
synthetic key "default", but a done event with an empty item ID and no
inline arguments looks up the empty key, so the buffered text is unused
(the call is emitted with an empty argument map, given that parsing the
empty JSON object yields the empty map) and the deletion targets the
empty key, leaving the "default" entry in place for the remainder of a
stream whose events never carry the literal item ID "default". -/
theorem default_buffer_orphan (parse : String → Option JsonObj)
    (t : StreamTranslator) (d e : StreamEvent) (evts : List StreamEvent)
    (hdtype : d.type = responseFunctionCallArgumentsDelta)
    (hdid : d.itemID = "") (hddelta : d.delta ≠ "")
    (hetype : e.type = responseFunctionCallArgumentsDone)
    (heid : e.itemID = "") (heargs : e.arguments = "")
    (hnone : lookupBuf t.functionArgs "" = none)
    (hparse : parse "\x7b\x7d" = some [])
    (hevts : ∀ ev ∈ evts, ev.itemID ≠ "default") :
    ((t.process parse d).1.functionArgs =
      writeBuf t.functionArgs "default" d.delta) ∧
    (t.process parse e =
      ({ functionArgs := eraseBuf t.functionArgs "" },
       .ok (some { candidates :=
        [{ content :=
            { role := "model",
              parts := [{ text := "", thought := false,
                          functionCall := some
                            { name := e.name, id := "", args := some [] } }] },
           finishReason := .unspecified }] }))) ∧
    (lookupBuf (eraseBuf t.functionArgs "") "default" =
      lookupBuf t.functionArgs "default") ∧
    ((lookupBuf t.functionArgs "default").isSome →
      (lookupBuf (processAll parse t evts).functionArgs "default").isSome) := by
  refine ⟨?_, ?_, ?_, ?_⟩
  · unfold StreamTranslator.process
    rw [hdtype]
    simp [responseOutputTextDelta, responseReasoningTextDelta,
      responseReasoningSummaryTextDelta, responseFunctionCallArgumentsDelta,
      hddelta, StreamTranslator.buffer, hdid]
  · have hemit := emitFunctionCall_spec parse t e "\x7b\x7d" (by
      simp [heargs, heid, hnone])
    have hproc := process_done_eq parse t e hetype
    rw [hemit] at hproc
    rw [hparse] at hproc
    simp only [] at hproc
    rw [hproc]
    simp [singlePartResponse, heid]
  · exact lookupBuf_eraseBuf_ne t.functionArgs (by decide)
  · exact processAll_preserves_default parse evts t hevts

/-- Witness for C10 at concrete inputs: a delta with empty item ID lands
under "default", the done event emits empty arguments and erases only the
empty key, and the "default" entry survives further events. -/
theorem default_buffer_orphan_witness :
    ((StreamTranslator.process (fun s => if s = "\x7b\x7d" then some [] else none)
        { functionArgs := [] }
        { type := responseFunctionCallArgumentsDelta, delta := "abc",
          itemID := "", arguments := "", name := "", message := "" }).1.functionArgs =
      writeBuf [] "default" "abc") ∧
    (StreamTranslator.process (fun s => if s = "\x7b\x7d" then some [] else none)
        { functionArgs := [("default", "abc")] }
        { type := responseFunctionCallArgumentsDone, delta := "",
          itemID := "", arguments := "", name := "fn", message := "" } =
      ({ functionArgs := eraseBuf [("default", "abc")] "" },
       .ok (some { candidates :=
        [{ content :=
            { role := "model",
              parts := [{ text := "", thought := false,
                          functionCall := some
                            { name := "fn", id := "", args := some [] } }] },
           finishReason := .unspecified }] }))) ∧
    (lookupBuf (eraseBuf [("default", "abc")] "") "default" =
      lookupBuf [("default", "abc")] "default") ∧
    ((lookupBuf ([("default", "abc")] : BufMap) "default").isSome →
      (lookupBuf (processAll (fun s => if s = "\x7b\x7d" then some [] else none)
          { functionArgs := [("default", "abc")] }
          [{ type := responseOutputTextDelta, delta := "hi", itemID := "",
             arguments := "", name := "", message := "" }]).functionArgs
        "default").isSome) := by
  have h1 := default_buffer_orphan (fun s => if s = "\x7b\x7d" then some [] else none)
    { functionArgs := [] }
    { type := responseFunctionCallArgumentsDelta, delta := "abc",
      itemID := "", arguments := "", name := "", message := "" }
    { type := responseFunctionCallArgumentsDone, delta := "",
      itemID := "", arguments := "", name := "fn", message := "" }
    [] rfl rfl (by decide) rfl rfl rfl rfl rfl (by simp)
  have h2 := default_buffer_orphan (fun s => if s = "\x7b\x7d" then some [] else none)
    { functionArgs := [("default", "abc")] }
    { type := responseFunctionCallArgumentsDelta, delta := "abc",
      itemID := "", arguments := "", name := "", message := "" }
    { type := responseFunctionCallArgumentsDone, delta := "",
      itemID := "", arguments := "", name := "fn", message := "" }
    [{ type := responseOutputTextDelta, delta := "hi", itemID := "",
       arguments := "", name := "", message := "" }]
    rfl rfl (by decide) rfl rfl rfl rfl rfl (by
      intro ev hev
      simp only [List.mem_singleton] at hev
      rw [hev]
      decide)
  exact ⟨h1.1, h2.2.1, h2.2.2.1, h2.2.2.2⟩

/-! ### Content conversion (`convertContents` and helpers) -/

/-- A request-side `genai.Part`: Go checks its optional kinds in order
(text, function call, function response); any part carrying none of the
three (e.g. one holding only inline data, represented by `inlineData`,
or an empty part) hits the fail-closed default branch. -/
structure GenPart where
  text : String := ""
  functionCall : Option FunctionCall := none
  functionResponse : Option FunctionResponse := none
  inlineData : Option (String × String) := none

/-- A request-side `genai.Content`: role plus parts (entries may be nil). -/
structure GenContent where
  role : String
  parts : List (Option GenPart)

/-- One converted input item (`responses.ResponseInputItemUnionParam`):
a message is kept as its role and non-blank text fragments. -/
inductive InputItem where
  | message (role : String) (texts : List String)
  | functionCall (p : FunctionToolCallParam)
  | functionCallOutput (p : FunctionCallOutputParam)

/-- `normalizeRole`. -/
def normalizeRole (role : String) : Except OAIError String :=
  if role = "" ∨ role = "user" then .ok "user"
  else if role = "model" then .ok "assistant"
  else if role = "system" then .ok "system"
  else if role = "developer" then .ok "developer"
  else .error (.unsupportedRole role)

/-- `newMessage`: build a message from accumulated text fragments,
dropping blank fragments; an all-blank run yields no message. -/
def newMessage (role : String) (texts : List String) :
    Except OAIError (Option (String × List String)) :=
  if texts.isEmpty then .ok none
  else
    match normalizeRole role with
    | .error e => .error e
    | .ok msgRole =>
        let contentList := texts.filter (fun txt => ¬txt.trim = "")
        if contentList.isEmpty then .ok none
        else .ok (some (msgRole, contentList))

/-- The `flushText` closure: convert the accumulated text run into a
message item (the caller resets the accumulator). -/
def flushText (items : List InputItem) (curRole : String)
    (textParts : List String) : Except OAIError (List InputItem) :=
  if textParts.isEmpty then .ok items
  else
    match newMessage curRole textParts with
    | .error e => .error e
    | .ok none => .ok items
    | .ok (some (r, ts)) => .ok (items ++ [.message r ts])

/-- The mutable loop state of `convertContents`. -/
structure ConvState where
  items : List InputItem
  tracker : CallTracker
  textParts : List String

/-- The inner per-part loop of `convertContents`. -/
def processParts (curRole : String) : ConvState → List (Option GenPart) →
    Except OAIError ConvState
  | st, [] => .ok st
  | st, none :: rest => processParts curRole st rest
  | st, some p :: rest =>
      if p.text ≠ "" then
        processParts curRole { st with textParts := st.textParts ++ [p.text] } rest
      else
        match p.functionCall with
        | some fc =>
            (match flushText st.items curRole st.textParts with
             | .error e => .error e
             | .ok items =>
                match st.tracker.newFunctionCall fc with
                | (_, .error e) => .error e
                | (tracker, .ok callParam) =>
                    processParts curRole
                      { items := items ++ [.functionCall callParam],
                        tracker := tracker, textParts := [] } rest)
        | none =>
            match p.functionResponse with
            | some fr =>
                (match flushText st.items curRole st.textParts with
                 | .error e => .error e
                 | .ok items =>
                    match st.tracker.newFunctionResponse fr with
                    | (_, .error e) => .error e
                    | (tracker, .ok respParam) =>
                        processParts curRole
                          { items := items ++ [.functionCallOutput respParam],
                            tracker := tracker, textParts := [] } rest)
            | none => .error .unsupportedPart

/-- The outer per-content loop of `convertContents` (nil or empty
contents are skipped; remaining text is flushed after each block, so the
text accumulator is empty at block boundaries). -/
def processContents : ConvState → List (Option GenContent) →
    Except OAIError (List InputItem)
  | st, [] => .ok st.items
  | st, none :: rest => processContents st rest
  | st, some c :: rest =>
      if c.parts.isEmpty then processContents st rest
      else
        match processParts c.role st c.parts with
        | .error e => .error e
        | .ok st' =>
            match flushText st'.items c.role st'.textParts with
            | .error e => .error e
            | .ok items =>
                processContents
                  { items := items, tracker := st'.tracker, textParts := [] } rest

/-- `convertContents`. -/
def convertContents (contents : List (Option GenContent)) :
    Except OAIError (List InputItem) :=
  processContents { items := [], tracker := CallTracker.empty, textParts := [] }
    contents

/-- Whether a conversion result is an error. -/
def isError {ε α : Type} (r : Except ε α) : Bool :=
  match r with
  | .error _ => true
  | .ok _ => false

/-- A part the Go switch classifies as neither text, function call, nor
function response. -/
def unsupportedKind (p : GenPart) : Prop :=
  p.text = "" ∧ p.functionCall = none ∧ p.functionResponse = none

theorem processParts_fail_closed (curRole : String) (parts : List (Option GenPart)) :
    ∀ st : ConvState, (∃ p, some p ∈ parts ∧ unsupportedKind p) →
    isError (processParts curRole st parts) = true := by
  induction parts with
  | nil =>
      intro st h
      obtain ⟨p, hp, -⟩ := h
      cases hp
  | cons hd rest ih =>
      intro st h
      obtain ⟨p, hp, hkind⟩ := h
      obtain ⟨htext, hfc, hfr⟩ := hkind
      cases hd with
      | none =>
          have hp' : some p ∈ rest := by
            rcases List.mem_cons.mp hp with h1 | h1
            · cases h1
            · exact h1
          exact ih st ⟨p, hp', htext, hfc, hfr⟩
      | some q =>
          by_cases hq : q = p
          · subst hq
            simp only [processParts, htext, hfc, hfr]
            simp [isError]
          · have hp' : some p ∈ rest := by
              rcases List.mem_cons.mp hp with h1 | h1
              · exact absurd (Option.some.inj h1).symm hq
              · exact h1
            simp only [processParts]
            by_cases hqt : q.text = ""
            · simp only [ne_eq, hqt, not_true_eq_false, if_false]
              split
              · split
                · simp [isError]
                · split
                  · simp [isError]
                  · exact ih _ ⟨p, hp', htext, hfc, hfr⟩
              · split
                · split
                  · simp [isError]
                  · split
                    · simp [isError]
                    · exact ih _ ⟨p, hp', htext, hfc, hfr⟩
                · simp [isError]
            · simp only [ne_eq, hqt, not_false_eq_true, if_true]
              exact ih _ ⟨p, hp', htext, hfc, hfr⟩

theorem processContents_fail_closed (contents : List (Option GenContent)) :
    ∀ st : ConvState,
    (∃ c p, some c ∈ contents ∧ some p ∈ c.parts ∧ unsupportedKind p) →
    isError (processContents st contents) = true := by
  induction contents with
  | nil =>
      intro st h
      obtain ⟨c, p, hc, -, -⟩ := h
      cases hc
  | cons hd rest ih =>
      intro st h
      obtain ⟨c, p, hc, hp, hkind⟩ := h
      cases hd with
      | none =>
          have hc' : some c ∈ rest := by
            rcases List.mem_cons.mp hc with h1 | h1
            · cases h1
            · exact h1
          exact ih st ⟨c, p, hc', hp, hkind⟩
      | some d =>
          by_cases hd' : d = c
          · subst hd'
            have hne : d.parts.isEmpty = false := by
              cases hpe : d.parts with
              | nil => rw [hpe] at hp; cases hp
              | cons a l => simp
            simp only [processContents, hne, Bool.false_eq_true, if_false]
            split
            · simp [isError]
            · next st' hpp =>
                have hbad := processParts_fail_closed d.role d.parts st ⟨p, hp, hkind⟩
                rw [hpp] at hbad
                simp [isError] at hbad
          · have hc' : some c ∈ rest := by
              rcases List.mem_cons.mp hc with h1 | h1
              · exact absurd (Option.some.inj h1).symm hd'
              · exact h1
            simp only [processContents]
            by_cases hemp : d.parts.isEmpty
            · simp only [hemp, if_true]
              exact ih st ⟨c, p, hc', hp, hkind⟩
            · simp only [hemp, Bool.false_eq_true, if_false]
              split
              · simp [isError]
              · split
                · simp [isError]
                · exact ih _ ⟨c, p, hc', hp, hkind⟩

/-- C4: Fail-closed content conversion.  If any content block contains a
part that is neither a text part, a function call, nor a function
response, `convertContents` returns an error (it never silently drops
such a part and succeeds). -/
theorem convertContents_fail_closed (contents : List (Option GenContent))
    (c : GenContent) (p : GenPart) (hc : some c ∈ contents)
    (hp : some p ∈ c.parts) (htext : p.text = "")
    (hfc : p.functionCall = none) (hfr : p.functionResponse = none) :
    isError (convertContents contents) = true :=
  processContents_fail_closed contents
    { items := [], tracker := CallTracker.empty, textParts := [] }
    ⟨c, p, hc, hp, htext, hfc, hfr⟩

/-- Witness for C4: a content whose only part holds just inline data
makes the whole conversion fail. -/
theorem convertContents_fail_closed_witness :
    isError (convertContents
      [some { role := "user",
              parts := [some { inlineData := some ("image/png", "bytes") }] }]) =
      true :=
  convertContents_fail_closed
    [some { role := "user",
            parts := [some { inlineData := some ("image/png", "bytes") }] }]
    { role := "user",
      parts := [some { inlineData := some ("image/png", "bytes") }] }
    { inlineData := some ("image/png", "bytes") }
    (List.mem_singleton.mpr rfl) (List.mem_singleton.mpr rfl) rfl rfl rfl

/-! ### Non-streaming response conversion (`convertOutputItems`) -/

/-- One entry of a vendor output item's content list (message entries
carry a type plus text or refusal; reasoning chunks carry text). -/
structure OutputContent where
  type : String
  text : String
  refusal : String
deriving Repr, DecidableEq

/-- `responses.ResponseOutputItemUnion`, flattened to the fields the
converter reads. -/
structure OutputItem where
  type : String
  content : List OutputContent
  summary : List String
  arguments : String
  name : String
  callID : String
deriving Repr, DecidableEq

/-- `convertFunctionCall` on an output item (argument parsing is the
external `parse`; an empty payload is an empty argument set). -/
def convertFunctionCall (parse : String → Option JsonObj) (item : OutputItem) :
    Except OAIError OutPart :=
  if item.arguments = "" then
    .ok { functionCall := some
            { name := item.name, id := item.callID, args := some [] } }
  else
    match parse item.arguments with
    | none => .error .parseFunctionCallArgs
    | some args =>
        .ok { functionCall := some
                { name := item.name, id := item.callID, args := some args } }

/-- The message-item inner loop: content entries become text parts
(non-empty text) or refusal parts; other content types are errors. -/
def convertMessageContents : List OutputContent → Except OAIError (List OutPart)
  | [] => .ok []
  | c :: rest =>
      if c.type = "output_text" then
        match convertMessageContents rest with
        | .error e => .error e
        | .ok parts =>
            .ok (if c.text ≠ "" then { text := c.text } :: parts else parts)
      else if c.type = "refusal" then
        match convertMessageContents rest with
        | .error e => .error e
        | .ok parts => .ok (({ text := c.refusal } : OutPart) :: parts)
      else .error (.unsupportedMessageContent c.type)

/-- A reasoning item's parts: non-empty content texts then non-empty
summary texts, all flagged as thoughts. -/
def reasoningParts (item : OutputItem) : List OutPart :=
  (item.content.filter (fun c => c.text ≠ "")).map
      (fun c => { text := c.text, thought := true }) ++
    (item.summary.filter (fun s => s ≠ "")).map
      (fun s => { text := s, thought := true })

/-- The item loop of `convertOutputItems`. -/
def convertItemsLoop (parse : String → Option JsonObj) :
    List OutputItem → Except OAIError (List OutPart)
  | [] => .ok []
  | item :: rest =>
      if item.type = "message" then
        match convertMessageContents item.content with
        | .error e => .error e
        | .ok head =>
            match convertItemsLoop parse rest with
            | .error e => .error e
            | .ok tail => .ok (head ++ tail)
      else if item.type = "function_call" then
        match convertFunctionCall parse item with
        | .error e => .error e
        | .ok part =>
            match convertItemsLoop parse rest with
            | .error e => .error e
            | .ok tail => .ok (part :: tail)
      else if item.type = "reasoning" then
        match convertItemsLoop parse rest with
        | .error e => .error e
        | .ok tail => .ok (reasoningParts item ++ tail)
      else .error (.unsupportedOutputItem item.type)

/-- `convertOutputItems`: empty input and part-less output are errors. -/
def convertOutputItems (parse : String → Option JsonObj)
    (items : List OutputItem) : Except OAIError (List OutPart) :=
  if items.isEmpty then .error .noOutputItems
  else
    match convertItemsLoop parse items with
    | .error e => .error e
    | .ok parts =>
        if parts.isEmpty then .error .noTextOrToolContent else .ok parts

/-- C5: Non-streaming response validation.  An empty output-item list is
rejected with the no-output-items error; items that yield zero canonical
parts are rejected with the no-text-or-tool-content error; consequently a
successful conversion always returns at least one part. -/
theorem response_requires_content (parse : String → Option JsonObj)
    (items : List OutputItem) :
    (convertOutputItems parse [] = .error .noOutputItems) ∧
    (items ≠ [] → convertItemsLoop parse items = .ok [] →
      convertOutputItems parse items = .error .noTextOrToolContent) ∧
    (∀ parts, convertOutputItems parse items = .ok parts → parts ≠ []) := by
  refine ⟨rfl, ?_, ?_⟩
  · intro hne hloop
    have hemp : items.isEmpty = false := by
      cases items with
      | nil => exact absurd rfl hne
      | cons a l => simp
    simp [convertOutputItems, hemp, hloop]
  · intro parts hok
    unfold convertOutputItems at hok
    by_cases hemp : items.isEmpty
    · simp [hemp] at hok
    · simp only [hemp, Bool.false_eq_true, if_false] at hok
      cases hloop : convertItemsLoop parse items with
      | error e => rw [hloop] at hok; cases hok
      | ok ps =>
          rw [hloop] at hok
          by_cases hps : ps.isEmpty
          · simp [hps] at hok
          · simp only [hps, Bool.false_eq_true, if_false] at hok
            cases hok
            exact fun he => hps (by simp [he])

/-- Witness for C5: a message item whose only content is empty output
text yields zero parts and is rejected; a successful conversion of a
one-part item returns a non-empty list. -/
theorem response_requires_content_witness :
    (convertOutputItems (fun _ => none) [] = .error .noOutputItems) ∧
    (convertOutputItems (fun _ => none)
        [{ type := "message",
           content := [{ type := "output_text", text := "", refusal := "" }],
           summary := [], arguments := "", name := "", callID := "" }] =
      .error .noTextOrToolContent) := by
  have h := response_requires_content (fun _ => none)
    [{ type := "message",
       content := [{ type := "output_text", text := "", refusal := "" }],
       summary := [], arguments := "", name := "", callID := "" }]
  exact ⟨h.1, h.2.1 (by decide) rfl⟩

/-! ### Generation config and schema formats (`applyGenerationConfig`) -/

/-- `genai.Schema`: the declared title plus the rest of its JSON-object
form (the adapter treats the schema opaquely through a
`json.Marshal`/`Unmarshal` round trip, which cannot fail for this
JSON-representable struct). -/
structure Schema where
  title : String := ""
  fields : JsonObj := []

/-- `schemaToMap`: the marshal round trip of a `genai.Schema`; `title`
uses `omitempty`, so it appears in the object exactly when declared. -/
def schemaToMap (s : Schema) : JsonObj :=
  (if s.title ≠ "" then [("title", JsonLite.str s.title)] else []) ++ s.fields

/-- `normalizeSchema` on a raw JSON-schema value: objects pass through,
nil is the empty-schema error, and any other value fails the
marshal/unmarshal round trip into an object mapping. -/
def normalizeSchema : JsonLite → Except OAIError JsonObj
  | .obj o => .ok o
  | .null => .error .emptyJSONSchema
  | _ => .error .schemaUnmarshal

/-- `responses.ResponseFormatTextJSONSchemaConfigParam`. -/
structure JSONSchemaFormat where
  name : String
  schema : JsonObj

/-- `genai.GenerateContentConfig`, restricted to the fields
`applyGenerationConfig` reads (pointer fields are `Option`). -/
structure GenerateContentConfig where
  temperature : Option Float := none
  topP : Option Float := none
  topK : Option Float := none
  maxOutputTokens : Int := 0
  stopSequences : List String := []
  candidateCount : Int := 0
  frequencyPenalty : Option Float := none
  presencePenalty : Option Float := none
  responseLogprobs : Bool := false
  logprobs : Option Int := none
  systemInstruction : Option GenContent := none
  responseMIMEType : String := ""
  responseSchema : Option Schema := none
  responseJsonSchema : Option JsonLite := none
  labels : Option (List (String × String)) := none
  safetySettings : Option (List Unit) := none

/-- `responses.ResponseNewParams`, restricted to what the config maps to. -/
structure ResponseNewParams where
  model : String := ""
  temperature : Option Float := none
  topP : Option Float := none
  maxOutputTokens : Option Int := none
  topLogprobs : Option Int := none
  instructions : Option String := none
  textFormat : Option JSONSchemaFormat := none

/-- `newJSONSchemaFormat`: schema from the raw JSON-schema value when
present, else from the native schema; the format name comes from the
native schema's title when declared, else the fixed default. -/
def newJSONSchemaFormat (cfg : GenerateContentConfig) :
    Except OAIError JSONSchemaFormat :=
  let schemaRes : Except OAIError JsonObj :=
    match cfg.responseJsonSchema with
    | some raw => normalizeSchema raw
    | none =>
        match cfg.responseSchema with
        | some s => .ok (schemaToMap s)
        | none => .error .jsonResponseWithoutSchema
  match schemaRes with
  | .error e => .error e
  | .ok schema =>
      let name :=
        match cfg.responseSchema with
        | some s => if s.title ≠ "" then s.title else "adk_response"
        | none => "adk_response"
      .ok { name := name, schema := schema }

/-- The loop of `flattenContentText`: nil parts are skipped, a non-text
part is an error, texts are joined with newlines. -/
def flattenParts : List (Option GenPart) → String → Except OAIError String
  | [], acc => .ok acc
  | none :: rest, acc => flattenParts rest acc
  | some p :: rest, acc =>
      if p.text = "" then .error .systemInstructionNonText
      else flattenParts rest (if acc = "" then p.text else acc ++ "\n" ++ p.text)

/-- `flattenContentText`. -/
def flattenContentText : Option GenContent → Except OAIError String
  | none => .ok ""
  | some content => flattenParts content.parts ""

/-- Temperature pass-through (`cfg.Temperature != nil`). -/
def applyTemperature (params : ResponseNewParams)
    (cfg : GenerateContentConfig) : ResponseNewParams :=
  match cfg.temperature with
  | some v => { params with temperature := some v }
  | none => params

/-- Top-p pass-through (`cfg.TopP != nil`). -/
def applyTopP (params : ResponseNewParams) (cfg : GenerateContentConfig) :
    ResponseNewParams :=
  match cfg.topP with
  | some v => { params with topP := some v }
  | none => params

/-- Max-output-tokens pass-through (`cfg.MaxOutputTokens > 0`). -/
def applyMaxTokens (params : ResponseNewParams) (cfg : GenerateContentConfig) :
    ResponseNewParams :=
  if cfg.maxOutputTokens > 0 then
    { params with maxOutputTokens := some cfg.maxOutputTokens }
  else params

/-- Log-probability mapping (`cfg.ResponseLogprobs`, default count 1). -/
def applyLogprobs (params : ResponseNewParams) (cfg : GenerateContentConfig) :
    ResponseNewParams :=
  if cfg.responseLogprobs then
    { params with topLogprobs := some (cfg.logprobs.getD 1) }
  else params

/-- The system-instruction step (`cfg.SystemInstruction != nil`). -/
def applyInstructions (params : ResponseNewParams)
    (cfg : GenerateContentConfig) : Except OAIError ResponseNewParams :=
  match cfg.systemInstruction with
  | none => .ok params
  | some _ =>
      match flattenContentText cfg.systemInstruction with
      | .error e => .error e
      | .ok inst =>
          .ok (if inst ≠ "" then { params with instructions := some inst }
               else params)

/-- The JSON gate of `applyGenerationConfig`: a structured-output format
is constructed when the MIME type is JSON or either schema is present. -/
def wantsJSONFormat (cfg : GenerateContentConfig) : Prop :=
  cfg.responseMIMEType = "application/json" ∨
    cfg.responseSchema.isSome ∨ cfg.responseJsonSchema.isSome

instance (cfg : GenerateContentConfig) : Decidable (wantsJSONFormat cfg) := by
  unfold wantsJSONFormat
  infer_instance

/-- The structured-output step. -/
def applyTextFormat (params : ResponseNewParams)
    (cfg : GenerateContentConfig) : Except OAIError ResponseNewParams :=
  if wantsJSONFormat cfg then
    match newJSONSchemaFormat cfg with
    | .error e => .error e
    | .ok format => .ok { params with textFormat := some format }
  else .ok params

/-- `applyGenerationConfig`. -/
def applyGenerationConfig (params : ResponseNewParams)
    (cfg? : Option GenerateContentConfig) : Except OAIError ResponseNewParams :=
  match cfg? with
  | none => .ok params
  | some cfg =>
      let params := applyTemperature params cfg
      let params := applyTopP params cfg
      if cfg.topK.isSome then .error .topKNotSupported
      else
        let params := applyMaxTokens params cfg
        if ¬cfg.stopSequences.isEmpty then .error .stopSequencesNotSupported
        else if cfg.candidateCount > 1 then .error .multipleCandidatesNotSupported
        else if cfg.frequencyPenalty.isSome ∨ cfg.presencePenalty.isSome then
          .error .penaltiesNotSupported
        else
          let params := applyLogprobs params cfg
          match applyInstructions params cfg with
          | .error e => .error e
          | .ok params =>
              if cfg.responseMIMEType ≠ "" ∧ cfg.responseMIMEType ≠ "text/plain" ∧
                  cfg.responseMIMEType ≠ "application/json" then
                .error (.unsupportedMimeType cfg.responseMIMEType)
              else
                match applyTextFormat params cfg with
                | .error e => .error e
                | .ok params =>
                    if cfg.labels.isSome then .error .labelsNotSupported
                    else if cfg.safetySettings.isSome then
                      .error .safetySettingsNotSupported
                    else .ok params

/-- C8: Capability-gap errors.  Top-k, non-empty stop sequences,
multi-candidate requests, frequency/presence penalties, labels and
safety settings each map to their own fixed, pairwise-distinct error
value (shown with the other gap features unset where a later check is
reached), and a successful config application implies none of them was
set — none is ever silently ignored. -/
theorem capability_gap_errors (params : ResponseNewParams)
    (cfg : GenerateContentConfig) :
    (cfg.topK.isSome = true →
      applyGenerationConfig params (some cfg) = .error .topKNotSupported) ∧
    (cfg.topK = none → cfg.stopSequences ≠ [] →
      applyGenerationConfig params (some cfg) =
        .error .stopSequencesNotSupported) ∧
    (cfg.topK = none → cfg.stopSequences = [] → cfg.candidateCount > 1 →
      applyGenerationConfig params (some cfg) =
        .error .multipleCandidatesNotSupported) ∧
    (cfg.topK = none → cfg.stopSequences = [] → cfg.candidateCount ≤ 1 →
      (cfg.frequencyPenalty.isSome = true ∨ cfg.presencePenalty.isSome = true) →
      applyGenerationConfig params (some cfg) = .error .penaltiesNotSupported) ∧
    (cfg.topK = none → cfg.stopSequences = [] → cfg.candidateCount ≤ 1 →
      cfg.frequencyPenalty = none → cfg.presencePenalty = none →
      cfg.systemInstruction = none → cfg.responseMIMEType = "" →
      cfg.responseSchema = none → cfg.responseJsonSchema = none →
      cfg.labels.isSome = true →
      applyGenerationConfig params (some cfg) = .error .labelsNotSupported) ∧
    (cfg.topK = none → cfg.stopSequences = [] → cfg.candidateCount ≤ 1 →
      cfg.frequencyPenalty = none → cfg.presencePenalty = none →
      cfg.systemInstruction = none → cfg.responseMIMEType = "" →
      cfg.responseSchema = none → cfg.responseJsonSchema = none →
      cfg.labels = none → cfg.safetySettings.isSome = true →
      applyGenerationConfig params (some cfg) =
        .error .safetySettingsNotSupported) ∧
    (∀ p, applyGenerationConfig params (some cfg) = .ok p →
      cfg.topK = none ∧ cfg.stopSequences = [] ∧ cfg.candidateCount ≤ 1 ∧
      cfg.frequencyPenalty = none ∧ cfg.presencePenalty = none ∧
      cfg.labels = none ∧ cfg.safetySettings = none) ∧
    ([OAIError.topKNotSupported, OAIError.stopSequencesNotSupported,
      OAIError.multipleCandidatesNotSupported, OAIError.penaltiesNotSupported,
      OAIError.labelsNotSupported, OAIError.safetySettingsNotSupported].Nodup) := by
  refine ⟨?_, ?_, ?_, ?_, ?_, ?_, ?_, by decide⟩
  · intro h
    simp [applyGenerationConfig, h]
  · intro h1 h2
    have hse : cfg.stopSequences.isEmpty = false := by
      cases hs : cfg.stopSequences with
      | nil => exact absurd hs h2
      | cons a l => simp
    simp [applyGenerationConfig, h1, hse]
  · intro h1 h2 h3
    simp [applyGenerationConfig, h1, h2, h3]
  · intro h1 h2 h3 h4
    have hcc : ¬cfg.candidateCount > 1 := not_lt.mpr h3
    simp [applyGenerationConfig, h1, h2, hcc, h4]
  · intro h1 h2 h3 h4 h5 h6 h7 h8 h9 h10
    have hcc : ¬cfg.candidateCount > 1 := not_lt.mpr h3
    simp [applyGenerationConfig, h1, h2, hcc, h4, h5, h6, h7, h8, h9, h10,
      applyInstructions, applyTextFormat, wantsJSONFormat]
  · intro h1 h2 h3 h4 h5 h6 h7 h8 h9 h10 h11
    have hcc : ¬cfg.candidateCount > 1 := not_lt.mpr h3
    simp [applyGenerationConfig, h1, h2, hcc, h4, h5, h6, h7, h8, h9, h10, h11,
      applyInstructions, applyTextFormat, wantsJSONFormat]
  · intro p h
    simp only [applyGenerationConfig] at h
    split at h
    · simp at h
    · rename_i htopk
      split at h
      · simp at h
      · rename_i hstop
        split at h
        · simp at h
        · rename_i hcc
          split at h
          · simp at h
          · rename_i hpen
            split at h
            · simp at h
            · split at h
              · simp at h
              · split at h
                · simp at h
                · split at h
                  · simp at h
                  · rename_i hlab
                    split at h
                    · simp at h
                    · rename_i hsafe
                      refine ⟨Option.not_isSome_iff_eq_none.mp (by simpa using htopk),
                              ?_, ?_, ?_, ?_, ?_, ?_⟩
                      · have : cfg.stopSequences.isEmpty = true := by
                          by_contra hb
                          exact hstop (by simpa using hb)
                        simpa using this
                      · exact not_lt.mp hcc
                      · have := fun hx => hpen (Or.inl hx)
                        exact Option.not_isSome_iff_eq_none.mp (by simpa using this)
                      · have := fun hx => hpen (Or.inr hx)
                        exact Option.not_isSome_iff_eq_none.mp (by simpa using this)
                      · exact Option.not_isSome_iff_eq_none.mp (by simpa using hlab)
                      · exact Option.not_isSome_iff_eq_none.mp (by simpa using hsafe)

/-- Witness for C8 at concrete configs: each capability gap produces its
named error, and a gap-free config is accepted. -/
theorem capability_gap_errors_witness :
    (applyGenerationConfig {} (some { topK := some 40.0 }) =
      .error .topKNotSupported) ∧
    (applyGenerationConfig {} (some { stopSequences := ["x"] }) =
      .error .stopSequencesNotSupported) ∧
    (applyGenerationConfig {} (some { candidateCount := 2 }) =
      .error .multipleCandidatesNotSupported) ∧
    (applyGenerationConfig {} (some { frequencyPenalty := some 1.0 }) =
      .error .penaltiesNotSupported) ∧
    (applyGenerationConfig {} (some { labels := some [("k", "v")] }) =
      .error .labelsNotSupported) ∧
    (applyGenerationConfig {} (some { safetySettings := some [] }) =
      .error .safetySettingsNotSupported) := by
  refine ⟨(capability_gap_errors {} { topK := some 40.0 }).1 rfl,
          (capability_gap_errors {} { stopSequences := ["x"] }).2.1 rfl (by decide),
          (capability_gap_errors {} { candidateCount := 2 }).2.2.1 rfl rfl (by decide),
          (capability_gap_errors {} { frequencyPenalty := some 1.0 }).2.2.2.1
            rfl rfl (by decide) (Or.inl rfl),
          (capability_gap_errors {} { labels := some [("k", "v")] }).2.2.2.2.1
            rfl rfl (by decide) rfl rfl rfl rfl rfl rfl rfl,
          (capability_gap_errors {} { safetySettings := some [] }).2.2.2.2.2.1
            rfl rfl (by decide) rfl rfl rfl rfl rfl rfl rfl rfl⟩

/-- C6: Structured-output format naming.  Whatever source supplied the
schema payload (native schema object or raw JSON-schema value), the
constructed format is named after the native schema's declared title when
one is declared and non-empty, and after the fixed default name
"adk_response" otherwise; and whenever a JSON response format is
requested (JSON MIME type or any schema present) and config application
succeeds, the attached format is exactly the one this constructor
returns. -/
theorem json_schema_format_naming (cfg : GenerateContentConfig) :
    (∀ fmt, newJSONSchemaFormat cfg = .ok fmt →
      ((∃ s, cfg.responseSchema = some s ∧ s.title ≠ "" ∧ fmt.name = s.title) ∨
       ((∀ s, cfg.responseSchema = some s → s.title = "") ∧
        fmt.name = "adk_response"))) ∧
    (wantsJSONFormat cfg → ∀ params params',
      applyGenerationConfig params (some cfg) = .ok params' →
      ∃ fmt, newJSONSchemaFormat cfg = .ok fmt ∧
        params'.textFormat = some fmt) := by
  constructor
  · intro fmt h
    simp only [newJSONSchemaFormat] at h
    split at h
    · cases h
    · rename_i schema hschema
      cases h
      cases hrs : cfg.responseSchema with
      | none =>
          right
          refine ⟨(fun s hs => nomatch hs), ?_⟩
          simp
      | some s =>
          by_cases ht : s.title = ""
          · right
            refine ⟨fun s' hs' => (Option.some.inj hs') ▸ ht, ?_⟩
            simp [ht]
          · left
            exact ⟨s, rfl, ht, by simp [ht]⟩
  · intro hjson params params' h
    simp only [applyGenerationConfig] at h
    split at h
    · simp at h
    · split at h
      · simp at h
      · split at h
        · simp at h
        · split at h
          · simp at h
          · split at h
            · simp at h
            · rename_i q hinst
              split at h
              · simp at h
              · split at h
                · simp at h
                · rename_i r hfmt
                  split at h
                  · simp at h
                  · split at h
                    · simp at h
                    · cases h
                      unfold applyTextFormat at hfmt
                      rw [if_pos hjson] at hfmt
                      split at hfmt
                      · cases hfmt
                      · rename_i format hformat
                        cases hfmt
                        exact ⟨format, hformat, rfl⟩

/-- Witness for C6 at a concrete config carrying both a raw JSON schema
and a titled native schema: the payload comes from the raw value while
the name comes from the native title. -/
theorem json_schema_format_naming_witness :
    ((∃ s, (some { title := "MyTitle", fields := [] } : Option Schema) = some s ∧
        s.title ≠ "" ∧
        ({ name := "MyTitle", schema := [("type", JsonLite.str "object")] }
          : JSONSchemaFormat).name = s.title) ∨
     ((∀ s, (some { title := "MyTitle", fields := [] } : Option Schema) = some s →
        s.title = "") ∧
      ({ name := "MyTitle", schema := [("type", JsonLite.str "object")] }
        : JSONSchemaFormat).name = "adk_response")) ∧
    (∃ fmt, newJSONSchemaFormat
        { responseSchema := some { title := "MyTitle", fields := [] },
          responseJsonSchema := some (.obj [("type", JsonLite.str "object")]) } =
        .ok fmt ∧
      (ResponseNewParams.textFormat
        { textFormat := some
            { name := "MyTitle",
              schema := [("type", JsonLite.str "object")] } }) = some fmt) := by
  have h := json_schema_format_naming
    { responseSchema := some { title := "MyTitle", fields := [] },
      responseJsonSchema := some (.obj [("type", JsonLite.str "object")]) }
  exact ⟨h.1 { name := "MyTitle", schema := [("type", JsonLite.str "object")] } rfl,
         h.2 (Or.inr (Or.inl rfl)) {}
           { textFormat := some
               { name := "MyTitle",
                 schema := [("type", JsonLite.str "object")] } } rfl⟩

/-! ### Tool choice (`convertToolChoice`, `allowedToolParam`) -/

/-- `responses.ToolChoiceAllowedParam`: each tool entry is the
`map[string]any` with the function type and name. -/
structure ToolChoiceAllowedParam where
  mode : String
  tools : List JsonObj

/-- `responses.ResponseNewParamsToolChoiceUnion` (the fields this
converter sets). -/
structure ToolChoiceUnion where
  ofToolChoiceMode : Option String := none
  ofAllowedTools : Option ToolChoiceAllowedParam := none

/-- `genai.FunctionCallingConfig`. -/
structure FunctionCallingConfig where
  mode : String := ""
  allowedFunctionNames : List String := []
deriving Repr, DecidableEq

/-- `genai.ToolConfig`. -/
structure ToolConfig where
  functionCallingConfig : Option FunctionCallingConfig := none

/-- `allowedToolParam`: the allowed-tools list from the non-empty names;
zero entries yield no parameter. -/
def allowedToolParam (names : List String) (mode : String) :
    Option ToolChoiceAllowedParam :=
  let tools := (names.filter (fun n => ¬n = "")).map
    (fun n => [("type", JsonLite.str "function"), ("name", JsonLite.str n)])
  if tools.isEmpty then none
  else some { mode := mode, tools := tools }

/-- The tail of `convertToolChoice`: return the choice only when it
actually carries a mode or an allowed-tools constraint. -/
def finishToolChoice (choice : ToolChoiceUnion) :
    Except OAIError (Option ToolChoiceUnion) :=
  if choice.ofToolChoiceMode.isSome ∨ choice.ofAllowedTools.isSome then
    .ok (some choice)
  else .ok none

/-- `convertToolChoice`. -/
def convertToolChoice (toolCfg : Option ToolConfig) :
    Except OAIError (Option ToolChoiceUnion) :=
  match toolCfg with
  | none => .ok none
  | some tc =>
      match tc.functionCallingConfig with
      | none => .ok none
      | some cfg =>
          if cfg.mode = "" ∨ cfg.mode = "MODE_UNSPECIFIED" ∨ cfg.mode = "AUTO" then
            if cfg.allowedFunctionNames.isEmpty then .ok none
            else finishToolChoice
              { ofAllowedTools :=
                  allowedToolParam cfg.allowedFunctionNames "auto" }
          else if cfg.mode = "NONE" then
            finishToolChoice { ofToolChoiceMode := some "none" }
          else if cfg.mode = "ANY" then
            if cfg.allowedFunctionNames.isEmpty then
              finishToolChoice { ofToolChoiceMode := some "required" }
            else finishToolChoice
              { ofAllowedTools :=
                  allowedToolParam cfg.allowedFunctionNames "required" }
          else .error (.unsupportedToolMode cfg.mode)

/-- C7: Tool-choice conversion: no choice in unspecified/auto mode with
no allowed names; an allowed-tools auto constraint over the non-empty
names in auto mode; the "none" option for mode NONE; the "required"
option for mode ANY with no allowed names; an allowed-tools required
constraint for mode ANY with names; an error for any other mode; and no
choice at all whenever the allowed-name list contains only empty names. -/
theorem tool_choice_conversion (tc : ToolConfig) (cfg : FunctionCallingConfig)
    (hcfg : tc.functionCallingConfig = some cfg) :
    ((cfg.mode = "" ∨ cfg.mode = "MODE_UNSPECIFIED" ∨ cfg.mode = "AUTO") →
      cfg.allowedFunctionNames = [] →
      convertToolChoice (some tc) = .ok none) ∧
    ((cfg.mode = "" ∨ cfg.mode = "MODE_UNSPECIFIED" ∨ cfg.mode = "AUTO") →
      cfg.allowedFunctionNames.filter (fun n => ¬n = "") ≠ [] →
      convertToolChoice (some tc) = .ok (some
        { ofToolChoiceMode := none,
          ofAllowedTools := some
            { mode := "auto",
              tools := (cfg.allowedFunctionNames.filter (fun n => ¬n = "")).map
                (fun n => [("type", JsonLite.str "function"),
                           ("name", JsonLite.str n)]) } })) ∧
    (cfg.mode = "NONE" →
      convertToolChoice (some tc) = .ok (some
        { ofToolChoiceMode := some "none", ofAllowedTools := none })) ∧
    (cfg.mode = "ANY" → cfg.allowedFunctionNames = [] →
      convertToolChoice (some tc) = .ok (some
        { ofToolChoiceMode := some "required", ofAllowedTools := none })) ∧
    (cfg.mode = "ANY" →
      cfg.allowedFunctionNames ≠ [] →
      cfg.allowedFunctionNames.filter (fun n => ¬n = "") ≠ [] →
      convertToolChoice (some tc) = .ok (some
        { ofToolChoiceMode := none,
          ofAllowedTools := some
            { mode := "required",
              tools := (cfg.allowedFunctionNames.filter (fun n => ¬n = "")).map
                (fun n => [("type", JsonLite.str "function"),
                           ("name", JsonLite.str n)]) } })) ∧
    (cfg.mode ∉ ["", "MODE_UNSPECIFIED", "AUTO", "NONE", "ANY"] →
      convertToolChoice (some tc) = .error (.unsupportedToolMode cfg.mode)) ∧
    ((cfg.mode = "" ∨ cfg.mode = "MODE_UNSPECIFIED" ∨ cfg.mode = "AUTO" ∨
        cfg.mode = "ANY") →
      cfg.allowedFunctionNames ≠ [] →
      (∀ n ∈ cfg.allowedFunctionNames, n = "") →
      convertToolChoice (some tc) = .ok none) := by
  have hne_isEmpty : ∀ l : List String, l ≠ [] → l.isEmpty = false := by
    intro l hl
    cases l with
    | nil => exact absurd rfl hl
    | cons a t => simp
  refine ⟨?_, ?_, ?_, ?_, ?_, ?_, ?_⟩
  · intro hmode hnames
    simp [convertToolChoice, hcfg, hmode, hnames]
  · intro hmode hfilter
    have hnames : cfg.allowedFunctionNames ≠ [] := by
      intro he
      rw [he] at hfilter
      exact hfilter rfl
    have hex : ∃ x ∈ cfg.allowedFunctionNames, ¬x = "" := by
      by_contra hno
      push_neg at hno
      refine hfilter (List.filter_eq_nil_iff.mpr ?_)
      intro a ha
      simpa using hno a ha
    have hnall : ¬∀ a ∈ cfg.allowedFunctionNames, a = "" := by
      obtain ⟨x, hx, hxne⟩ := hex
      exact fun hfa => hxne (hfa x hx)
    simp only [convertToolChoice, hcfg, hmode, if_true,
      hne_isEmpty _ hnames, Bool.false_eq_true, if_false]
    simp [finishToolChoice, allowedToolParam, hne_isEmpty _ hfilter, hex, hnall]
  · intro hmode
    have h1 : ¬(cfg.mode = "" ∨ cfg.mode = "MODE_UNSPECIFIED" ∨
        cfg.mode = "AUTO") := by
      rw [hmode]; simp
    simp [convertToolChoice, hcfg, h1, hmode, finishToolChoice]
  · intro hmode hnames
    have h1 : ¬(cfg.mode = "" ∨ cfg.mode = "MODE_UNSPECIFIED" ∨
        cfg.mode = "AUTO") := by
      rw [hmode]; simp
    have h2 : cfg.mode ≠ "NONE" := by rw [hmode]; simp
    simp [convertToolChoice, hcfg, h1, h2, hmode, hnames, finishToolChoice]
  · intro hmode hnames hfilter
    have h1 : ¬(cfg.mode = "" ∨ cfg.mode = "MODE_UNSPECIFIED" ∨
        cfg.mode = "AUTO") := by
      rw [hmode]; simp
    have h2 : cfg.mode ≠ "NONE" := by rw [hmode]; simp
    have hex : ∃ x ∈ cfg.allowedFunctionNames, ¬x = "" := by
      by_contra hno
      push_neg at hno
      refine hfilter (List.filter_eq_nil_iff.mpr ?_)
      intro a ha
      simpa using hno a ha
    have hnall : ¬∀ a ∈ cfg.allowedFunctionNames, a = "" := by
      obtain ⟨x, hx, hxne⟩ := hex
      exact fun hfa => hxne (hfa x hx)
    simp only [convertToolChoice, hcfg, h1, if_false, h2, hmode, if_true,
      hne_isEmpty _ hnames, Bool.false_eq_true]
    simp [finishToolChoice, allowedToolParam, hne_isEmpty _ hfilter, hex, hnall]
  · intro hmode
    simp only [List.mem_cons, List.mem_singleton, not_or, List.not_mem_nil,
      or_false] at hmode
    obtain ⟨m1, m2, m3, m4, m5⟩ := hmode
    simp [convertToolChoice, hcfg, m1, m2, m3, m4, m5]
  · intro hmode hnames hall
    have hfilter : cfg.allowedFunctionNames.filter (fun n => ¬n = "") = [] := by
      rw [List.filter_eq_nil_iff]
      intro a ha
      simp [hall a ha]
    rcases hmode with h | h | h | h
    all_goals {
      first
      | (simp only [convertToolChoice, hcfg, h, true_or, or_true, if_true,
          hne_isEmpty _ hnames, Bool.false_eq_true, if_false]
         simp [finishToolChoice, allowedToolParam, hfilter, hall]
         try exact hall)
      | (have h1 : ¬(cfg.mode = "" ∨ cfg.mode = "MODE_UNSPECIFIED" ∨
            cfg.mode = "AUTO") := by rw [h]; simp
         have h2 : cfg.mode ≠ "NONE" := by rw [h]; simp
         simp only [convertToolChoice, hcfg, h1, if_false, h2, h, if_true,
           hne_isEmpty _ hnames, Bool.false_eq_true]
         simp [finishToolChoice, allowedToolParam, hfilter, hall]
         try exact hall)
    }

/-- Witness for C7 at concrete configs: auto with no names yields no
choice, NONE disables tools, ANY with only-empty names yields no choice. -/
theorem tool_choice_conversion_witness :
    (convertToolChoice
        (some { functionCallingConfig :=
                  some { mode := "AUTO", allowedFunctionNames := [] } }) =
      .ok none) ∧
    (convertToolChoice
        (some { functionCallingConfig :=
                  some { mode := "NONE", allowedFunctionNames := [] } }) =
      .ok (some { ofToolChoiceMode := some "none", ofAllowedTools := none })) ∧
    (convertToolChoice
        (some { functionCallingConfig :=
                  some { mode := "ANY",
                         allowedFunctionNames := ["", ""] } }) =
      .ok none) := by
  refine ⟨(tool_choice_conversion
      { functionCallingConfig :=
          some { mode := "AUTO", allowedFunctionNames := [] } }
      { mode := "AUTO", allowedFunctionNames := [] } rfl).1
      (by decide) rfl, ?_, ?_⟩
  · exact (tool_choice_conversion
      { functionCallingConfig :=
          some { mode := "NONE", allowedFunctionNames := [] } }
      { mode := "NONE", allowedFunctionNames := [] } rfl).2.2.1 rfl
  · exact (tool_choice_conversion
      { functionCallingConfig :=
          some { mode := "ANY", allowedFunctionNames := ["", ""] } }
      { mode := "ANY", allowedFunctionNames := ["", ""] } rfl).2.2.2.2.2.2
      (by decide) (by decide) (by decide)

end AdkOpenAI
